import Mathlib

/-!
Verification of the diagnostic renderer in `src/error_reporter.rs`.

The embedding is a shallow translation of `ErrorReporter` and its helper
functions into Lean.  The external collaborators (the `codemap` position
service and the `text_buffer_2d` grid) are not part of the repository
source, so they are modelled at their interface: the codemap as a record
of lookup functions, and the grid as a trace of write operations
(`Op` below) plus a row counter.  Machine integers (`usize`) are mapped
to `Nat`; the program performs no arithmetic that can overflow on the
inputs it builds (columns and small offsets), so no modular reduction is
required.  Fallible code (`unwrap` panics) is mapped to `Option`, with
`none` standing for a panic.
-/

/-- A span: an opaque pair of positions, resolved through the codemap.
Mirrors `codemap::Span` at the interface used by `error_reporter.rs`
(`span.lo` and `span.hi` are positions fed to `lookup_char_pos`). -/
structure Span where
  lo : Nat
  hi : Nat
deriving DecidableEq, Repr

/-- Result of `lookup_char_pos`: a line number and a character column
(the code uses `loc.line` and `loc.col.0`). -/
structure Loc where
  line : Nat
  col : Nat
deriving DecidableEq, Repr

/-- Modelled from the spec: the position-lookup collaborator
(`codemap::CodeMap`), which is not part of this repository's source.
Only the operations used by `error_reporter.rs` are present:
`span_to_filename`, `lookup_char_pos`, `span_to_string`, and
`span_to_lines` (which can fail: `none` models an `Err` result).
`span_to_lines` returns the covered line indices together with the
file's `get_line` accessor (`none` models a missing line). -/
structure FileLinesResult where
  lines : List Nat
  getLine : Nat → Option String

structure CodeMap where
  span_to_filename : Span → String
  lookup_char_pos : Nat → Loc
  span_to_string : Span → String
  span_to_lines : Span → Option FileLinesResult

/-- Mirrors `struct SpanLabel` in `error_reporter.rs`. -/
structure SpanLabel where
  span : Span
  is_primary : Bool
  label : Option String
deriving DecidableEq, Repr

/-- Mirrors `struct Annotation` in `error_reporter.rs` (same field order,
which is what the derived `Ord` sorts by). -/
structure Annotation where
  start_col : Nat
  end_col : Nat
  is_primary : Bool
  is_minimized : Bool
  label : Option String
deriving DecidableEq, Repr

/-- Mirrors `struct Line` in `error_reporter.rs`. -/
structure Line where
  span : Span
  annotations : List Annotation

/-- Mirrors `fn check_old_school() -> bool { false }`. -/
def check_old_school : Bool := false

/-- Mirrors the `Style` enum of the external `text_buffer_2d` crate at
the variants used by `error_reporter.rs`.  The `level` variant carries
the level's rendered text. -/
inductive Style where
  | level (levelText : String)
  | headerMsg
  | lineAndColumn
  | quotation
  | underlinePrimary
  | underlineSecondary
  | labelPrimary
  | labelSecondary
  | oldSkoolNote
deriving DecidableEq, Repr

/-- Modelled from the spec: the external grid primitive (`TextBuffer2D`)
is write-only within a render pass, so it is modelled as the trace of
write operations issued against it. -/
inductive Op where
  | append (row : Nat) (text : String) (style : Style)
  | putc (row col : Nat) (ch : Char) (style : Style)
  | puts (row col : Nat) (text : String) (style : Style)
  | setStyle (row col : Nat) (style : Style)
deriving DecidableEq, Repr

/-- The row a write touches. -/
def Op.row : Op → Nat
  | .append r _ _ => r
  | .putc r _ _ _ => r
  | .puts r _ _ _ => r
  | .setStyle r _ _ => r

/-- Modelled from the spec: `TextBuffer2D::num_lines` after a trace of
writes — each write at row `r` makes the buffer at least `r + 1` rows
tall. -/
def bumpRows (n : Nat) (ops : List Op) : Nat :=
  ops.foldl (fun acc op => max acc (op.row + 1)) n

/-- Mirrors `struct ErrorReporter` (the `Level` is kept as its rendered
text, which is all `render_header` uses of it). -/
structure ErrorReporter where
  level : String
  primary_span : Span
  primary_msg : String
  span_labels : List SpanLabel
  cm : CodeMap

/-!
## The annotation builder (`render_source_lines`, lines 107–141)

The source computes a widened/minimized `(start_col, end_col,
is_minimized)` triple, but the `Annotation` it pushes takes its columns
from `lo.col.0` / `hi.col.0` directly; only `is_minimized` is taken from
the computed triple.  The dead locals are kept below to mirror the
source faithfully.
-/

/-- The annotation built for one `SpanLabel` (lines 111–140 of
`render_source_lines`).  Note the columns pushed are `lo.col` and
`hi.col`, exactly as in the source; `start_end_cols` is the computed
triple whose column components the source never reads. -/
def annotationFor (cm : CodeMap) (sl : SpanLabel) : Annotation :=
  let lo := cm.lookup_char_pos sl.span.lo
  let hi := cm.lookup_char_pos sl.span.hi
  let start_end_cols : Nat × Nat × Bool :=
    if lo.line ≠ hi.line then (lo.col, lo.col + 1, true) else (lo.col, hi.col, false)
  let is_minimized := start_end_cols.2.2
  -- `if start_col == end_col { end_col.0 += 1; }` — computed, never read:
  let widened_end_col :=
    if start_end_cols.1 = start_end_cols.2.1 then start_end_cols.2.1 + 1
    else start_end_cols.2.1
  { start_col := lo.col
    end_col := hi.col
    is_primary := sl.is_primary
    is_minimized := is_minimized
    label := sl.label }

/-- The file of a span-label and the line its annotation is attached to
(`span_to_filename` and `lookup_char_pos(span.lo).line`). -/
def keyOf (cm : CodeMap) (sl : SpanLabel) : String × Nat :=
  (cm.span_to_filename sl.span, (cm.lookup_char_pos sl.span.lo).line)

/-- Association-list lookup, modelling `HashMap` lookup. -/
def alookup {α β : Type} [DecidableEq α] (k : α) : List (α × β) → Option β
  | [] => none
  | (k2, v) :: rest => if k = k2 then some v else alookup k rest

/-- `entry(k).or_insert(d)` followed by a mutation `f` of the entry:
if `k` is present its value is replaced by `f v`, otherwise `(k, f d)`
is added. -/
def updateEntry {α β : Type} [DecidableEq α] (k : α) (d : β) (f : β → β) :
    List (α × β) → List (α × β)
  | [] => [(k, f d)]
  | (k2, v) :: rest =>
    if k = k2 then (k2, f v) :: rest else (k2, v) :: updateEntry k d f rest

/-- The nested `file → line → Line` map built by `render_source_lines`
(`HashMap<String, HashMap<usize, Line>>`, modelled as association
lists; key iteration order is supplied separately where it matters). -/
def FileMap : Type := List (String × List (Nat × Line))

/-- One step of the grouping loop (lines 107–141): resolve the label,
enter the file bucket, enter the line bucket (`or_insert` a fresh `Line`
carrying this label's span), and push the built annotation. -/
def addSpanLabel (cm : CodeMap) (m : FileMap) (sl : SpanLabel) : FileMap :=
  let f := cm.span_to_filename sl.span
  let n := (cm.lookup_char_pos sl.span.lo).line
  updateEntry f []
    (fun lm =>
      updateEntry n { span := sl.span, annotations := [] }
        (fun ln => { ln with annotations := ln.annotations ++ [annotationFor cm sl] })
        lm)
    m

/-- The grouping fold over all span-labels. -/
def buildFileMap (cm : CodeMap) (sls : List SpanLabel) : FileMap :=
  sls.foldl (addSpanLabel cm) []

/-- The `Line` stored for file `f`, line `n`. -/
def bucketOf (m : FileMap) (f : String) (n : Nat) : Option Line :=
  (alookup f m).bind (alookup n)

/-- The span-labels that land on file `f`, line `n`, in input order. -/
def matchingLabels (cm : CodeMap) (f : String) (n : Nat)
    (sls : List SpanLabel) : List SpanLabel :=
  sls.filter fun sl => decide (keyOf cm sl = (f, n))

/-!
## The sort (`annotations.sort()`, line 199)

`Vec::sort` is a stable sort by the derived `Ord` of `Annotation`, which
compares the fields lexicographically in declaration order:
`start_col`, `end_col`, `is_primary`, `is_minimized`, `label`
(`Option<String>` with `None < Some`, strings lexicographic; `bool`
with `false < true`).  This is exactly the lexicographic order on the
tuple of fields, with `Option<String>` ordered as `WithBot String`
(bottom = `None`) and `Bool` ordered `false < true`.
-/

/-- The derived-`Ord` sort key of an `Annotation`: its fields in
declaration order, compared lexicographically. -/
def annKey (a : Annotation) :
    Lex (Nat × Lex (Nat × Lex (Bool × Lex (Bool × WithBot String)))) :=
  toLex (a.start_col, toLex (a.end_col, toLex (a.is_primary,
    toLex (a.is_minimized, (a.label : WithBot String)))))

/-- The derived `Ord` of `Annotation` as a relation:
`a <= b` in the derived ordering. -/
def annR (a b : Annotation) : Prop := annKey a ≤ annKey b

instance : DecidableRel annR := fun a b =>
  inferInstanceAs (Decidable (annKey a ≤ annKey b))

/-- `annotations.sort()`: a stable sort by the derived `Ord`. -/
def sortAnns (l : List Annotation) : List Annotation :=
  List.insertionSort annR l

/-- Mirrors `fn overlaps` (lines 369–372); `Range::contains` on
`a..b` is `a <= x && x < b`. -/
def rangeContains (lo hi x : Nat) : Bool :=
  decide (lo ≤ x) && decide (x < hi)

def overlaps (a1 a2 : Annotation) : Bool :=
  rangeContains a2.start_col a2.end_col a1.start_col ||
  rangeContains a1.start_col a1.end_col a2.start_col

/-!
## The layout engine (`render_source_line`, lines 160–349)

Each loop of the source becomes a function producing the trace of grid
writes it issues, and `render_source_line` concatenates them.
-/

/-- The underline style of an annotation. -/
def underlineStyle (a : Annotation) : Style :=
  if a.is_primary then Style.underlinePrimary else Style.underlineSecondary

/-- The label style of an annotation. -/
def labelStyle (a : Annotation) : Style :=
  if a.is_primary then Style.labelPrimary else Style.labelSecondary

/-- `annotation.label.as_ref().unwrap()` — only reached for labeled
annotations, where the `unwrap` cannot panic. -/
def labelText (a : Annotation) : String := a.label.getD ""

/-- The underline pass for one annotation (lines 202–240): a marker on
the row below the source text for every column in
`[start_col, end_col)`, plus (when not old-school and not minimized) a
restyling of the source-text row at the same column. -/
def underlineOpsFor (off : Nat) (a : Annotation) : List Op :=
  (List.range' a.start_col (a.end_col - a.start_col)).flatMap fun p =>
    if check_old_school then
      [Op.putc (off + 1) p (if p = a.start_col then '^' else '~')
        (if a.is_primary then Style.underlinePrimary else Style.oldSkoolNote)]
    else if a.is_primary then
      [Op.putc (off + 1) p '^' Style.underlinePrimary] ++
        (if !a.is_minimized then [Op.setStyle off p Style.underlinePrimary] else [])
    else
      [Op.putc (off + 1) p '-' Style.underlineSecondary] ++
        (if !a.is_minimized then [Op.setStyle off p Style.underlineSecondary] else [])

/-- The underline pass over the sorted annotations. -/
def underlineOps (off : Nat) (anns : List Annotation) : List Op :=
  anns.flatMap (underlineOpsFor off)

/-- The trailing-label test (lines 291–295): does any other annotation
(earlier labeled ones, then the unlabeled ones) overlap the last labeled
annotation? -/
def trailingApplies (labeled unlabeled : List Annotation) : Bool :=
  match labeled.getLast? with
  | none => false
  | some last => (labeled.dropLast ++ unlabeled).all fun a => !overlaps a last

/-- The labeled annotations still pending after the trailing-label step
(line 304: the last one is removed exactly when the optimization
applied). -/
def pendingAfter (labeled unlabeled : List Annotation) : List Annotation :=
  if trailingApplies labeled unlabeled then labeled.dropLast else labeled

/-- One iteration of the connector loop (lines 314–348) for the
annotation at position `i` of a pending list of length `n`:
`blank_lines = 3 + (n - i - 1)` rows are allocated, `|` is drawn at
`start_col` on row offsets `2` up to (excluding) `blank_lines`, and the
label is written at row offset `blank_lines`. -/
def connectorBlock (off n i : Nat) (a : Annotation) : List Op :=
  let comes_after := n - i - 1
  let blank_lines := 3 + comes_after
  ((List.range' 2 (blank_lines - 2)).map fun j =>
    Op.putc (off + j) a.start_col '|' (underlineStyle a)) ++
  [Op.puts (off + blank_lines) a.start_col (labelText a) (labelStyle a)]

/-- The connector loop over the pending annotations (enumerated from
`i`, with `n` the total pending count). -/
def connectorOps (off n i : Nat) : List Annotation → List Op
  | [] => []
  | a :: rest => connectorBlock off n i a ++ connectorOps off n (i + 1) rest

/-- The label-writing phase (lines 242–348): if no annotation is
labeled (or in old-school mode) nothing is written; otherwise the
trailing-label optimization may append `" <label>"` to the underline
row, and the remaining pending annotations get connector blocks. -/
def labelOps (off : Nat) (labeled unlabeled : List Annotation) : List Op :=
  if labeled.isEmpty then []
  else if check_old_school then []
  else
    let trail :=
      if trailingApplies labeled unlabeled then
        match labeled.getLast? with
        | some last => [Op.append (off + 1) (" " ++ labelText last) (labelStyle last)]
        | none => []
      else []
    let pending := pendingAfter labeled unlabeled
    trail ++ connectorOps off pending.length 0 pending

/-- `render_source_line` (lines 160–349) as the trace of grid writes it
issues, starting at buffer row `off` (= `buffer.num_lines()` at entry).
`none` models a panic: the source `unwrap`s the result of
`span_to_lines` and the first element of its `lines`. -/
def renderSourceLineOps (cm : CodeMap) (off : Nat) (line : Line) :
    Option (List Op) :=
  match cm.span_to_lines line.span with
  | none => none
  | some result =>
    match result.lines.head? with
    | none => none
    | some firstIdx =>
      let sourceString := (result.getLine firstIdx).getD ""
      let srcOp := Op.append off sourceString Style.quotation
      if line.annotations.isEmpty then some [srcOp]
      else
        let anns := sortAnns line.annotations
        let parts := anns.partition fun a => a.label.isSome
        some ([srcOp] ++ underlineOps off anns ++ labelOps off parts.1 parts.2)

/-!
## The renderer (`render`, `render_header`, `render_source_lines`)

`file_map.keys()` iterates a `HashMap` in an order that is not fixed by
the map's contents, so the file iteration order is an explicit
parameter `pi` (in the program it is whatever order the `HashMap`
yields on that run).  Line numbers within a file are sorted
(`all_lines.sort()`).
-/

/-- `render_header` (lines 87–97). -/
def renderHeaderOps (er : ErrorReporter) : List Op :=
  [Op.append 0 er.level (Style.level er.level),
   Op.append 0 ": " Style.headerMsg,
   Op.append 0 er.primary_msg Style.headerMsg,
   Op.append 1 (er.cm.span_to_string er.primary_span) Style.lineAndColumn]

/-- `all_lines.sort()`: the line numbers of one file's bucket, in
ascending order. -/
def sortedLineKeys (lm : List (Nat × Line)) : List Nat :=
  List.insertionSort (fun a b => a ≤ b) (lm.map Prod.fst)

/-- Render one grouped line, threading the row counter. -/
def renderOneLine (cm : CodeMap) (st : Nat × List Op) (ln : Line) :
    Option (Nat × List Op) :=
  match renderSourceLineOps cm st.1 ln with
  | none => none
  | some ops => some (bumpRows st.1 ops, st.2 ++ ops)

/-- `render_source_lines` (lines 99–158): build the file map, then for
each file (in iteration order `pi`) render its lines in ascending
line-number order.  Indexing a missing key would panic (`none`). -/
def renderSourceLinesOps (er : ErrorReporter) (pi : List String)
    (st0 : Nat × List Op) : Option (Nat × List Op) :=
  let fm := buildFileMap er.cm er.span_labels
  pi.foldlM
    (fun st f =>
      let lm := (alookup f fm).getD []
      (sortedLineKeys lm).foldlM
        (fun st n =>
          match alookup n lm with
          | some ln => renderOneLine er.cm st ln
          | none => none)
        st)
    st0

/-- `render` (lines 351–366): header, then the source lines; the result
is the full trace of grid writes (`none` models a panic during
rendering). -/
def render (er : ErrorReporter) (pi : List String) : Option (List Op) :=
  let hops := renderHeaderOps er
  match renderSourceLinesOps er pi (bumpRows 0 hops, hops) with
  | none => none
  | some st => some st.2

/-- The file keys of the grouped map, in insertion order (the key set
the `HashMap` iteration permutes). -/
def fileKeys (er : ErrorReporter) : List String :=
  (buildFileMap er.cm er.span_labels).map Prod.fst

/-- Proof scaffolding for the grouping fold: how one `(file, line)`
bucket evolves as a list of span-labels (all landing on that bucket) is
folded in — `none` becomes a fresh `Line` carrying the first label's
span, and each label appends its annotation. -/
def extendBucket (cm : CodeMap) : Option Line → List SpanLabel → Option Line
  | o, [] => o
  | o, sl :: rest =>
    let ln := o.getD { span := sl.span, annotations := [] }
    extendBucket cm
      (some { ln with annotations := ln.annotations ++ [annotationFor cm sl] }) rest

/-!
## Concrete instances used by witnesses and counterexamples
-/

/-- A codemap resolving every position to line 1, column 6 (a
zero-width span, as the parser supplies for end-of-file). -/
def cmZero : CodeMap :=
  { span_to_filename := fun _ => "main.rs",
    span_to_string := fun _ => "main.rs:1:6",
    lookup_char_pos := fun _ => { line := 1, col := 6 },
    span_to_lines := fun _ => some { lines := [0], getLine := fun _ => some "let x;" } }

def slZero : SpanLabel :=
  { span := { lo := 6, hi := 6 }, is_primary := true, label := none }

/-- A codemap where position 0 is line 1 column 5 and position 1 is
line 3 column 2 (a multi-line span). -/
def cmMulti : CodeMap :=
  { span_to_filename := fun _ => "main.rs",
    span_to_string := fun _ => "main.rs:1:5",
    lookup_char_pos := fun p =>
      if p = 0 then { line := 1, col := 5 } else { line := 3, col := 2 },
    span_to_lines := fun _ => some { lines := [0], getLine := fun _ => some "fn f(" } }

def slMulti : SpanLabel :=
  { span := { lo := 0, hi := 1 }, is_primary := true, label := none }

/-- Two annotations tied on `(start_col, end_col)` but differing in
`is_primary` (and label), in insertion order `[annA, annB]`. -/
def annA : Annotation :=
  { start_col := 5, end_col := 8, is_primary := true, is_minimized := false,
    label := some "x" }

def annB : Annotation :=
  { start_col := 5, end_col := 8, is_primary := false, is_minimized := false,
    label := some "y" }

/-- A codemap for single-line witnesses: column = position, line 1. -/
def cmW : CodeMap :=
  { span_to_filename := fun _ => "main.rs",
    span_to_string := fun _ => "main.rs:1:5",
    lookup_char_pos := fun p => { line := 1, col := p },
    span_to_lines := fun _ => some { lines := [0], getLine := fun _ => some "let x = 5;" } }

/-- One labeled primary annotation over columns `[4, 7)`. -/
def annHere : Annotation :=
  { start_col := 4, end_col := 7, is_primary := true, is_minimized := false,
    label := some "here" }

def lineHere : Line := { span := { lo := 4, hi := 7 }, annotations := [annHere] }

/-- Two overlapping labeled annotations (from the `span_overlap_label`
situation pictured in the source comments). -/
def annFn : Annotation :=
  { start_col := 0, end_col := 14, is_primary := false, is_minimized := false,
    label := some "fn_span" }

def annX : Annotation :=
  { start_col := 7, end_col := 8, is_primary := false, is_minimized := false,
    label := some "x_span" }

def lineOverlap : Line := { span := { lo := 0, hi := 14 }, annotations := [annFn, annX] }

/-- A codemap whose `get_line` fails (fetch failure) while
`span_to_lines` succeeds. -/
def cmNoFetch : CodeMap :=
  { span_to_filename := fun _ => "main.rs",
    span_to_string := fun _ => "main.rs:9:0",
    lookup_char_pos := fun p => { line := 9, col := p },
    span_to_lines := fun _ => some { lines := [42], getLine := fun _ => none } }

/-- A codemap where the span at position 10 fails to resolve
(`span_to_lines` errors) while the span at position 0 resolves fine. -/
def cmBadLine : CodeMap :=
  { span_to_filename := fun _ => "main.rs",
    span_to_string := fun _ => "main.rs:1:0",
    lookup_char_pos := fun p =>
      if p < 10 then { line := 1, col := p } else { line := 2, col := p - 10 },
    span_to_lines := fun sp =>
      if sp.lo = 0 then some { lines := [0], getLine := fun _ => some "ok" }
      else none }

/-- A diagnostic with two grouped lines, the second of which fails to
resolve. -/
def erBadLine : ErrorReporter :=
  { level := "error", primary_span := { lo := 0, hi := 1 }, primary_msg := "msg",
    span_labels :=
      [{ span := { lo := 0, hi := 1 }, is_primary := true, label := none },
       { span := { lo := 10, hi := 11 }, is_primary := false, label := none }],
    cm := cmBadLine }

/-- A codemap spreading two spans over two files. -/
def cmTwoFiles : CodeMap :=
  { span_to_filename := fun sp => if sp.lo = 0 then "a.rs" else "b.rs",
    span_to_string := fun _ => "a.rs:1:0",
    lookup_char_pos := fun p => { line := 1, col := p },
    span_to_lines := fun _ => some { lines := [0], getLine := fun _ => some "src" } }

/-- A diagnostic touching the two files of `cmTwoFiles`. -/
def erTwoFiles : ErrorReporter :=
  { level := "error", primary_span := { lo := 0, hi := 1 }, primary_msg := "msg",
    span_labels :=
      [{ span := { lo := 0, hi := 1 }, is_primary := true, label := none },
       { span := { lo := 10, hi := 11 }, is_primary := false, label := none }],
    cm := cmTwoFiles }

/-- The full trace written for `lineHere` starting at buffer row 2. -/
def opsHere : List Op :=
  [Op.append 2 "let x = 5;" Style.quotation,
   Op.putc 3 4 '^' Style.underlinePrimary,
   Op.setStyle 2 4 Style.underlinePrimary,
   Op.putc 3 5 '^' Style.underlinePrimary,
   Op.setStyle 2 5 Style.underlinePrimary,
   Op.putc 3 6 '^' Style.underlinePrimary,
   Op.setStyle 2 6 Style.underlinePrimary,
   Op.append 3 " here" Style.labelPrimary]

/-- The full trace written for `lineOverlap` starting at buffer row 2:
the source text, the two underlines (the second overwriting column 7),
and — since `annX` overlaps `annFn`, so the trailing optimization is
skipped — a connector block for each of the two labels, on distinct
rows. -/
def opsOverlap : List Op :=
  [Op.append 2 "let x = 5;" Style.quotation,
   Op.putc 3 0 '-' Style.underlineSecondary,
   Op.setStyle 2 0 Style.underlineSecondary,
   Op.putc 3 1 '-' Style.underlineSecondary,
   Op.setStyle 2 1 Style.underlineSecondary,
   Op.putc 3 2 '-' Style.underlineSecondary,
   Op.setStyle 2 2 Style.underlineSecondary,
   Op.putc 3 3 '-' Style.underlineSecondary,
   Op.setStyle 2 3 Style.underlineSecondary,
   Op.putc 3 4 '-' Style.underlineSecondary,
   Op.setStyle 2 4 Style.underlineSecondary,
   Op.putc 3 5 '-' Style.underlineSecondary,
   Op.setStyle 2 5 Style.underlineSecondary,
   Op.putc 3 6 '-' Style.underlineSecondary,
   Op.setStyle 2 6 Style.underlineSecondary,
   Op.putc 3 7 '-' Style.underlineSecondary,
   Op.setStyle 2 7 Style.underlineSecondary,
   Op.putc 3 8 '-' Style.underlineSecondary,
   Op.setStyle 2 8 Style.underlineSecondary,
   Op.putc 3 9 '-' Style.underlineSecondary,
   Op.setStyle 2 9 Style.underlineSecondary,
   Op.putc 3 10 '-' Style.underlineSecondary,
   Op.setStyle 2 10 Style.underlineSecondary,
   Op.putc 3 11 '-' Style.underlineSecondary,
   Op.setStyle 2 11 Style.underlineSecondary,
   Op.putc 3 12 '-' Style.underlineSecondary,
   Op.setStyle 2 12 Style.underlineSecondary,
   Op.putc 3 13 '-' Style.underlineSecondary,
   Op.setStyle 2 13 Style.underlineSecondary,
   Op.putc 3 7 '-' Style.underlineSecondary,
   Op.setStyle 2 7 Style.underlineSecondary,
   Op.putc 4 0 '|' Style.underlineSecondary,
   Op.putc 5 0 '|' Style.underlineSecondary,
   Op.puts 6 0 "fn_span" Style.labelSecondary,
   Op.putc 4 7 '|' Style.underlineSecondary,
   Op.puts 5 7 "x_span" Style.labelSecondary]

/-!
## Properties of the sorting order
-/

instance : IsTotal Annotation annR :=
  ⟨fun a b => le_total (annKey a) (annKey b)⟩

instance : IsTrans Annotation annR :=
  ⟨fun _ _ _ h1 h2 => le_trans h1 h2⟩

theorem annKey_inj {a b : Annotation} (h : annKey a = annKey b) : a = b := by
  unfold annKey at h
  simp only [toLex_inj, Prod.mk.injEq] at h
  obtain ⟨h1, h2, h3, h4, h5⟩ := h
  cases a; cases b
  simp_all [WithBot.coe_inj]

instance : IsAntisymm Annotation annR :=
  ⟨fun a b h1 h2 => annKey_inj (le_antisymm h1 h2)⟩

theorem sortAnns_perm (l : List Annotation) : (sortAnns l).Perm l :=
  List.perm_insertionSort annR l

theorem sortAnns_sorted (l : List Annotation) : List.Sorted annR (sortAnns l) :=
  List.sorted_insertionSort annR l

theorem mem_sortAnns {a : Annotation} {l : List Annotation} :
    a ∈ sortAnns l ↔ a ∈ l :=
  List.mem_insertionSort annR

theorem sortAnns_eq_nil_iff {l : List Annotation} : sortAnns l = [] ↔ l = [] := by
  constructor
  · intro h
    have := sortAnns_perm l
    rw [h] at this
    exact this.nil_eq.symm
  · intro h
    subst h
    rfl

/-!
## Claim theorems
-/

/-- C1 (code bug): for a zero-width span (both endpoints at line 1,
column 6), the built annotation has `end_col = start_col = 6` — the
widening `end_col = start_col + 1` that the source computes (and that
its own comment promises) is discarded when the `Annotation` is pushed
— and the underline pass for that annotation writes no `^` marker at
all. -/
theorem c1_zero_width_discarded :
    annotationFor cmZero slZero =
      { start_col := 6, end_col := 6, is_primary := true, is_minimized := false,
        label := none } ∧
    (annotationFor cmZero slZero).end_col ≠
      (annotationFor cmZero slZero).start_col + 1 ∧
    underlineOpsFor 0 (annotationFor cmZero slZero) = [] := by
  refine ⟨rfl, ?_, rfl⟩
  decide

/-- C2 (code bug): for a multi-line span (line 1 column 5 to line 3
column 2), the built annotation is marked `is_minimized = true`, but its
`end_col` is the raw `hi.col = 2` instead of `start_col + 1 = 6`: the
collapsed column the source computes is discarded when the `Annotation`
is pushed (here even leaving `end_col < start_col`). -/
theorem c2_multiline_collapse_discarded :
    annotationFor cmMulti slMulti =
      { start_col := 5, end_col := 2, is_primary := true, is_minimized := true,
        label := none } ∧
    (annotationFor cmMulti slMulti).end_col ≠
      (annotationFor cmMulti slMulti).start_col + 1 := by
  refine ⟨rfl, ?_⟩
  decide

/-- C8 (amended): the sort orders annotations by the full derived
lexicographic order on `(start_col, end_col, is_primary, is_minimized,
label)` — a total order — producing a sorted permutation of the input,
and re-sorting an already-sorted sequence is a no-op (idempotence).
Ties on `(start_col, end_col)` alone are broken by the remaining
fields, not by insertion order (see the counterexample). -/
theorem c8_sort_total_and_idempotent (l : List Annotation) :
    List.Sorted annR (sortAnns l) ∧ (sortAnns l).Perm l ∧
    sortAnns (sortAnns l) = sortAnns l ∧
    ∀ a b : Annotation, annR a b ∨ annR b a :=
  ⟨sortAnns_sorted l, sortAnns_perm l,
   (sortAnns_sorted l).insertionSort_eq,
   fun a b => le_total (annKey a) (annKey b)⟩

/-- C8 counterexample: `annA` and `annB` tie on `(start_col, end_col) =
(5, 8)` and appear in insertion order `[annA, annB]`, yet the sort swaps
them (because `is_primary` participates in the derived ordering with
`false < true`), so ties are not broken by insertion order. -/
theorem c8_counterexample :
    annA.start_col = annB.start_col ∧ annA.end_col = annB.end_col ∧
    sortAnns [annA, annB] ≠ [annA, annB] := by
  refine ⟨rfl, rfl, ?_⟩
  decide

/-- C9 (confirmed): the interval-overlap predicate of the layout
(`fn overlaps`, lines 369–372) is symmetric. -/
theorem c9_overlaps_symm (a b : Annotation) : overlaps a b = overlaps b a := by
  unfold overlaps
  exact Bool.or_comm _ _

/-!
## The grouping invariant (C10)
-/

theorem alookup_updateEntry_self {α β : Type} [DecidableEq α]
    (k : α) (d : β) (f : β → β) (m : List (α × β)) :
    alookup k (updateEntry k d f m) = some (f ((alookup k m).getD d)) := by
  induction m with
  | nil => simp [alookup, updateEntry]
  | cons kv rest ih =>
    obtain ⟨k2, v⟩ := kv
    by_cases h : k = k2
    · subst h
      simp [alookup, updateEntry]
    · simp [alookup, updateEntry, h, ih]

theorem alookup_updateEntry_ne {α β : Type} [DecidableEq α]
    {k k2 : α} (d : β) (f : β → β) (m : List (α × β)) (h : k ≠ k2) :
    alookup k (updateEntry k2 d f m) = alookup k m := by
  induction m with
  | nil => simp [alookup, updateEntry, h]
  | cons kv rest ih =>
    obtain ⟨k3, v⟩ := kv
    by_cases h2 : k2 = k3
    · subst h2
      simp [alookup, updateEntry, h]
    · by_cases h3 : k = k3
      · subst h3
        simp [alookup, updateEntry, h2, Ne.symm h2]
      · simp [alookup, updateEntry, h2, h3, ih]

theorem bucketOf_addSpanLabel (cm : CodeMap) (m : FileMap) (sl : SpanLabel)
    (f : String) (n : Nat) :
    bucketOf (addSpanLabel cm m sl) f n =
      if keyOf cm sl = (f, n) then
        some
          (let ln := (bucketOf m f n).getD { span := sl.span, annotations := [] }
           { ln with annotations := ln.annotations ++ [annotationFor cm sl] })
      else bucketOf m f n := by
  unfold bucketOf addSpanLabel keyOf
  by_cases hf : cm.span_to_filename sl.span = f
  · rw [show cm.span_to_filename sl.span = f from hf]
    rw [alookup_updateEntry_self]
    by_cases hn : (cm.lookup_char_pos sl.span.lo).line = n
    · rw [show (cm.lookup_char_pos sl.span.lo).line = n from hn]
      rw [if_pos rfl]
      cases hm : alookup f m with
      | none => simp [alookup_updateEntry_self, alookup]
      | some lm => simp [alookup_updateEntry_self]
    · rw [if_neg (by simp [hn])]
      cases hm : alookup f m with
      | none =>
        simp [alookup, updateEntry, Ne.symm hn]
      | some lm =>
        simp [alookup_updateEntry_ne _ _ _ (Ne.symm hn)]
  · rw [if_neg (by simp [hf])]
    rw [alookup_updateEntry_ne _ _ _ (fun h => hf h.symm)]

theorem bucketOf_foldl (cm : CodeMap) (f : String) (n : Nat)
    (sls : List SpanLabel) (m : FileMap) :
    bucketOf (sls.foldl (addSpanLabel cm) m) f n =
      extendBucket cm (bucketOf m f n) (matchingLabels cm f n sls) := by
  induction sls generalizing m with
  | nil => rfl
  | cons sl rest ih =>
    rw [List.foldl_cons, ih]
    unfold matchingLabels
    rw [List.filter_cons]
    by_cases h : keyOf cm sl = (f, n)
    · rw [if_pos (by simp [h])]
      have := bucketOf_addSpanLabel cm m sl f n
      rw [if_pos h] at this
      rw [this]
      rfl
    · rw [if_neg (by simp [h])]
      have := bucketOf_addSpanLabel cm m sl f n
      rw [if_neg h] at this
      rw [this]

theorem extendBucket_some (cm : CodeMap) (l : List SpanLabel) (ln : Line) :
    extendBucket cm (some ln) l =
      some { span := ln.span,
             annotations := ln.annotations ++ l.map (annotationFor cm) } := by
  induction l generalizing ln with
  | nil => simp [extendBucket]
  | cons sl rest ih =>
    rw [extendBucket]
    simp only [Option.getD_some]
    rw [ih]
    simp

/-- C10 (confirmed): for every `(file, line-number)` bucket, the stored
`Line` carries the span of the *first* span-label grouped onto that
bucket (`or_insert` only inserts when the key is absent), while every
matching span-label — in input order — appends its annotation; later
labels never change the line's span (and hence never change which span
the line's text is fetched from in `render_source_line`). -/
theorem c10_first_span_wins (cm : CodeMap) (sls : List SpanLabel)
    (f : String) (n : Nat) :
    bucketOf (buildFileMap cm sls) f n =
      (matchingLabels cm f n sls).head?.map
        (fun sl0 =>
          { span := sl0.span,
            annotations := (matchingLabels cm f n sls).map (annotationFor cm) }) := by
  unfold buildFileMap
  rw [bucketOf_foldl]
  cases h : matchingLabels cm f n sls with
  | nil => rfl
  | cons sl0 rest =>
    rw [extendBucket]
    simp only [bucketOf, alookup, Option.getD_none]
    rw [extendBucket_some]
    simp

/-!
## Structure of `render_source_line`'s trace
-/

theorem renderSourceLineOps_some (cm : CodeMap) (off : Nat) (line : Line)
    (r : FileLinesResult) (idx : Nat)
    (hr : cm.span_to_lines line.span = some r)
    (hf : r.lines.head? = some idx)
    (hne : line.annotations ≠ []) :
    renderSourceLineOps cm off line =
      some ([Op.append off ((r.getLine idx).getD "") Style.quotation] ++
        underlineOps off (sortAnns line.annotations) ++
        labelOps off
          ((sortAnns line.annotations).partition fun x => x.label.isSome).1
          ((sortAnns line.annotations).partition fun x => x.label.isSome).2) := by
  have hempty : line.annotations.isEmpty = false := by
    cases h : line.annotations with
    | nil => exact absurd h hne
    | cons a rest => rfl
  simp only [renderSourceLineOps, hr, hf, hempty]
  rfl

theorem labelOps_concat (off : Nat) (prev : List Annotation) (last : Annotation)
    (unlabeled : List Annotation) :
    labelOps off (prev ++ [last]) unlabeled =
      (if (prev ++ unlabeled).all (fun x => !overlaps x last) then
        Op.append (off + 1) (" " ++ labelText last) (labelStyle last) ::
          connectorOps off prev.length 0 prev
      else
        connectorOps off (prev ++ [last]).length 0 (prev ++ [last])) := by
  unfold labelOps pendingAfter trailingApplies
  rw [List.getLast?_concat, List.dropLast_concat]
  have hempty : (prev ++ [last]).isEmpty = false := by simp
  simp only [hempty, check_old_school, Bool.false_eq_true, if_false]
  by_cases h : (prev ++ unlabeled).all (fun x => !overlaps x last) = true
  · simp [h]
  · simp [h]

/-- C3 (confirmed): with at least one labeled annotation on the line
(`labeled = prev ++ [last]` in sorted order), the render is exactly the
source-text append, the underline pass, and then: if the last labeled
annotation overlaps nothing else on the line, its label (preceded by
one space) is appended onto the underline row and only the earlier
labeled annotations get connector blocks — none are emitted for it;
otherwise the optimization is skipped entirely and every labeled
annotation, `last` included, gets a connector-and-label block. -/
theorem c3_trailing_label (cm : CodeMap) (off : Nat) (line : Line)
    (r : FileLinesResult) (idx : Nat) (prev : List Annotation)
    (last : Annotation) (unlabeled : List Annotation)
    (hr : cm.span_to_lines line.span = some r)
    (hf : r.lines.head? = some idx)
    (hp : (sortAnns line.annotations).partition (fun x => x.label.isSome) =
      (prev ++ [last], unlabeled)) :
    renderSourceLineOps cm off line =
      some ([Op.append off ((r.getLine idx).getD "") Style.quotation] ++
        underlineOps off (sortAnns line.annotations) ++
        (if (prev ++ unlabeled).all (fun x => !overlaps x last) then
          Op.append (off + 1) (" " ++ labelText last) (labelStyle last) ::
            connectorOps off prev.length 0 prev
        else
          connectorOps off (prev ++ [last]).length 0 (prev ++ [last]))) := by
  have hne : line.annotations ≠ [] := by
    intro h0
    rw [h0] at hp
    rw [show sortAnns [] = [] from rfl, List.partition_eq_filter_filter] at hp
    simp only [List.filter_nil, Prod.mk.injEq] at hp
    exact absurd hp.1.symm (by simp)
  rw [renderSourceLineOps_some cm off line r idx hr hf hne, hp,
    labelOps_concat]

/-- Witness for C3: a line with exactly one labeled primary annotation
and no other annotations gets its label appended on the underline row
(and no connector blocks at all). -/
theorem c3_trailing_label_witness :
    renderSourceLineOps cmW 2 lineHere =
      some ([Op.append 2 "let x = 5;" Style.quotation] ++
        underlineOps 2 (sortAnns [annHere]) ++
        (if ([] ++ ([] : List Annotation)).all (fun x => !overlaps x annHere) then
          Op.append 3 (" " ++ labelText annHere) (labelStyle annHere) ::
            connectorOps 2 0 0 []
        else
          connectorOps 2 1 0 ([] ++ [annHere]))) :=
  c3_trailing_label cmW 2 lineHere
    { lines := [0], getLine := fun _ => some "let x = 5;" } 0
    [] annHere [] rfl rfl rfl

/-!
## Membership in the connector and underline traces
-/

theorem connectorBlock_subset_connectorOps (off n : Nat) :
    ∀ (pending : List Annotation) (i0 i : Nat) (a : Annotation),
      pending[i]? = some a →
      connectorBlock off n (i0 + i) a ⊆ connectorOps off n i0 pending := by
  intro pending
  induction pending with
  | nil =>
    intro i0 i a ha
    simp at ha
  | cons b rest ih =>
    intro i0 i a ha
    cases i with
    | zero =>
      simp only [List.getElem?_cons_zero, Option.some.injEq] at ha
      subst ha
      exact List.subset_append_of_subset_left _ (List.Subset.refl _)
    | succ j =>
      simp only [List.getElem?_cons_succ] at ha
      have := ih (i0 + 1) j a ha
      rw [show i0 + 1 + j = i0 + (j + 1) by omega] at this
      exact fun x hx =>
        List.mem_append_right _ (this hx)

theorem labelOps_connectorOps_subset (off : Nat)
    (labeled unlabeled : List Annotation) (hne : labeled ≠ []) :
    connectorOps off (pendingAfter labeled unlabeled).length 0
        (pendingAfter labeled unlabeled) ⊆
      labelOps off labeled unlabeled := by
  unfold labelOps
  have hempty : labeled.isEmpty = false := by
    cases h : labeled with
    | nil => exact absurd h hne
    | cons a rest => rfl
  simp only [hempty, check_old_school, Bool.false_eq_true, if_false]
  exact List.subset_append_right _ _

theorem renderSourceLineOps_ops_shape (cm : CodeMap) (off : Nat) (line : Line)
    (ops : List Op) (hrend : renderSourceLineOps cm off line = some ops)
    (hne : line.annotations ≠ []) :
    ∃ r idx,
      cm.span_to_lines line.span = some r ∧ r.lines.head? = some idx ∧
      ops = [Op.append off ((r.getLine idx).getD "") Style.quotation] ++
        underlineOps off (sortAnns line.annotations) ++
        labelOps off
          ((sortAnns line.annotations).partition fun x => x.label.isSome).1
          ((sortAnns line.annotations).partition fun x => x.label.isSome).2 := by
  cases hr : cm.span_to_lines line.span with
  | none =>
    simp only [renderSourceLineOps, hr] at hrend
    exact Option.noConfusion hrend
  | some r =>
    cases hf : r.lines.head? with
    | none =>
      simp only [renderSourceLineOps, hr, hf] at hrend
      exact Option.noConfusion hrend
    | some idx =>
      refine ⟨r, idx, rfl, hf, ?_⟩
      rw [renderSourceLineOps_some cm off line r idx hr hf hne] at hrend
      exact (Option.some_inj.mp hrend).symm

/-- C4 (confirmed): every labeled annotation still pending after the
trailing-label step, at position `i` of the pending list (in sorted
order, with `n - i - 1` annotations still after it), has its full
connector block in the render trace — a `|` at its `start_col` on every
row at offsets `2` up to (but excluding) `3 + (n - i - 1)` below the
source row, and its label at `start_col` on the row at offset
`3 + (n - i - 1)` (that is the content of `connectorBlock`) — and the
label rows of distinct pending annotations are pairwise distinct, so
overlapping labeled annotations get their labels on distinct rows. -/
theorem c4_connector_rows (cm : CodeMap) (off : Nat) (line : Line)
    (ops : List Op) (labeled unlabeled : List Annotation) (i : Nat)
    (a : Annotation)
    (hrend : renderSourceLineOps cm off line = some ops)
    (hp : (sortAnns line.annotations).partition (fun x => x.label.isSome) =
      (labeled, unlabeled))
    (ha : (pendingAfter labeled unlabeled)[i]? = some a) :
    connectorBlock off (pendingAfter labeled unlabeled).length i a ⊆ ops ∧
    (List.map
      (fun i2 => off + (3 + ((pendingAfter labeled unlabeled).length - i2 - 1)))
      (List.range (pendingAfter labeled unlabeled).length)).Nodup := by
  have hpend_ne : pendingAfter labeled unlabeled ≠ [] := by
    intro h0
    rw [h0] at ha
    simp at ha
  have hlab_ne : labeled ≠ [] := by
    intro h0
    apply hpend_ne
    rw [h0]
    rfl
  have hanns_ne : line.annotations ≠ [] := by
    intro h0
    rw [h0] at hp
    rw [show sortAnns [] = [] from rfl, List.partition_eq_filter_filter] at hp
    simp only [List.filter_nil, Prod.mk.injEq] at hp
    exact hlab_ne hp.1.symm
  obtain ⟨r, idx, hr, hf, hshape⟩ :=
    renderSourceLineOps_ops_shape cm off line ops hrend hanns_ne
  constructor
  · have h1 : connectorBlock off (pendingAfter labeled unlabeled).length i a ⊆
        connectorOps off (pendingAfter labeled unlabeled).length 0
          (pendingAfter labeled unlabeled) := by
      have h0 := connectorBlock_subset_connectorOps off
        (pendingAfter labeled unlabeled).length
        (pendingAfter labeled unlabeled) 0 i a ha
      rwa [Nat.zero_add] at h0
    have h2 := labelOps_connectorOps_subset off labeled unlabeled hlab_ne
    rw [hshape, hp]
    intro x hx
    exact List.mem_append_right _ (h2 (h1 hx))
  · apply List.Nodup.map_on
    · intro x hx y hy hxy
      simp only [List.mem_range] at hx hy
      omega
    · exact List.nodup_range _

/-- C5 (confirmed): with legacy mode off, every annotation on a
rendered line puts a marker — `^` styled primary if it is primary, `-`
styled secondary otherwise — on the row directly below the source text
at every column of `[start_col, end_col)`; the source-text row itself
is restyled at the same column exactly when the annotation is not
minimized (a minimized annotation's underline block contains no
restyling write at all). -/
theorem c5_underline_pass (cm : CodeMap) (off : Nat) (line : Line)
    (ops : List Op) (a : Annotation) (p : Nat)
    (hrend : renderSourceLineOps cm off line = some ops)
    (ha : a ∈ line.annotations)
    (h1 : a.start_col ≤ p) (h2 : p < a.end_col) :
    Op.putc (off + 1) p (if a.is_primary then '^' else '-')
      (underlineStyle a) ∈ ops ∧
    (a.is_minimized = false → Op.setStyle off p (underlineStyle a) ∈ ops) ∧
    (a.is_minimized = true →
      Op.setStyle off p (underlineStyle a) ∉ underlineOpsFor off a) := by
  have hanns_ne : line.annotations ≠ [] := by
    intro h0
    rw [h0] at ha
    simp at ha
  obtain ⟨r, idx, hr, hf, hshape⟩ :=
    renderSourceLineOps_ops_shape cm off line ops hrend hanns_ne
  have hmem : a ∈ sortAnns line.annotations := mem_sortAnns.mpr ha
  have hrange : p ∈ List.range' a.start_col (a.end_col - a.start_col) := by
    rw [List.mem_range'_1]
    omega
  have hlift : ∀ op : Op, op ∈ underlineOpsFor off a → op ∈ ops := by
    intro op hop
    have hu : op ∈ underlineOps off (sortAnns line.annotations) := by
      unfold underlineOps
      rw [List.mem_flatMap]
      exact ⟨a, hmem, hop⟩
    rw [hshape]
    exact List.mem_append_left _ (List.mem_append_right _ hu)
  refine ⟨?_, ?_, ?_⟩
  · apply hlift
    unfold underlineOpsFor
    rw [List.mem_flatMap]
    refine ⟨p, hrange, ?_⟩
    cases hip : a.is_primary <;>
      simp [check_old_school, underlineStyle, hip]
  · intro hmin
    apply hlift
    unfold underlineOpsFor
    rw [List.mem_flatMap]
    refine ⟨p, hrange, ?_⟩
    cases hip : a.is_primary <;>
      simp [check_old_school, underlineStyle, hip, hmin]
  · intro hmin hcon
    unfold underlineOpsFor at hcon
    rw [List.mem_flatMap] at hcon
    obtain ⟨q, hq, hcon⟩ := hcon
    cases hip : a.is_primary <;>
      simp [check_old_school, hip, hmin] at hcon

/-- Witness for C4: in `lineOverlap`, the later labeled annotation
`annX` overlaps `annFn`, so both stay pending; the first pending
annotation's connector block (rows at offsets 2 and 3 below the source
row, label on offset 4) is in the trace, and the two label rows are
distinct. -/
theorem c4_connector_rows_witness :
    connectorBlock 2 (pendingAfter [annFn, annX] []).length 0 annFn ⊆
      opsOverlap ∧
    (List.map
      (fun i2 => 2 + (3 + ((pendingAfter [annFn, annX] []).length - i2 - 1)))
      (List.range (pendingAfter [annFn, annX] []).length)).Nodup :=
  c4_connector_rows cmW 2 lineOverlap opsOverlap [annFn, annX] [] 0 annFn
    (by decide) (by decide) (by decide)

/-- Witness for C5: `annHere` (primary, not minimized) puts a `^` at
column 5 of the underline row and restyles the source row there. -/
theorem c5_underline_pass_witness :
    Op.putc 3 5 (if annHere.is_primary then '^' else '-')
      (underlineStyle annHere) ∈ opsHere ∧
    (annHere.is_minimized = false →
      Op.setStyle 2 5 (underlineStyle annHere) ∈ opsHere) ∧
    (annHere.is_minimized = true →
      Op.setStyle 2 5 (underlineStyle annHere) ∉ underlineOpsFor 2 annHere) :=
  c5_underline_pass cmW 2 lineHere opsHere annHere 5
    (by decide) (by decide) (by decide) (by decide)

/-- C6 (amended): a failure to *fetch* the line's text — `get_line`
returning nothing — is local to that line: `render_source_line` still
succeeds and renders the line with the empty fallback string as its
source text.  (A failure to *resolve* the span — `span_to_lines`
failing, or covering no lines — instead panics and aborts the whole
render; see the counterexample.) -/
theorem c6_fetch_failure_local (cm : CodeMap) (off : Nat) (line : Line)
    (r : FileLinesResult) (idx : Nat)
    (hr : cm.span_to_lines line.span = some r)
    (hf : r.lines.head? = some idx)
    (hg : r.getLine idx = none) :
    (renderSourceLineOps cm off line).map List.head? =
      some (some (Op.append off "" Style.quotation)) := by
  simp only [renderSourceLineOps, hr, hf, hg, Option.getD_none]
  cases h : line.annotations.isEmpty <;> simp [h]

/-- Witness for C6: with `cmNoFetch` the line's text cannot be fetched,
yet the line renders, with `""` as its source text. -/
theorem c6_fetch_failure_local_witness :
    (renderSourceLineOps cmNoFetch 7 lineHere).map List.head? =
      some (some (Op.append 7 "" Style.quotation)) :=
  c6_fetch_failure_local cmNoFetch 7 lineHere
    { lines := [42], getLine := fun _ => none } 42 rfl rfl rfl

/-- C6 counterexample: in `erBadLine` the first grouped line resolves
fine, but the second line's `span_to_lines` fails; the `unwrap` at line
161 of the source then panics, so the *entire* render — header and the
healthy first line included — produces nothing.  The failure is not
local to the bad line, refuting the claim as stated. -/
theorem c6_resolve_failure_aborts :
    fileKeys erBadLine = ["main.rs"] ∧
    (erBadLine.cm.span_to_lines { lo := 0, hi := 1 }).isSome = true ∧
    render erBadLine ["main.rs"] = none := by
  refine ⟨rfl, rfl, by decide⟩

/-- C7 (amended): within each file, the grouped lines are rendered in
ascending line-number order (`render_source_lines` walks the keys
through `sortedLineKeys`).  The *file* iteration order, by contrast, is
whatever the `HashMap` yields on that run and is not a function of the
diagnostic — see the counterexample. -/
theorem c7_lines_ascending (er : ErrorReporter) (f : String) :
    List.Sorted (fun a b => a ≤ b)
      (sortedLineKeys ((alookup f (buildFileMap er.cm er.span_labels)).getD [])) :=
  List.sorted_insertionSort _ _

/-- C7 counterexample: `erTwoFiles` groups annotations into the two
files `a.rs` and `b.rs`; iterating the file keys in the two possible
orders (both permutations of the key set) yields different rendered
traces, so a run's output is not determined by the diagnostic alone —
two runs whose `HashMap`s iterate differently produce the files in
different orders. -/
theorem c7_file_order_counterexample :
    fileKeys erTwoFiles = ["a.rs", "b.rs"] ∧
    render erTwoFiles ["a.rs", "b.rs"] ≠ render erTwoFiles ["b.rs", "a.rs"] := by
  refine ⟨rfl, by decide⟩
